import Mathlib

/-!
Verification of the scientific-advisor RAG core against its specification.

The Python sources are shallowly embedded: strings become List Char, byte
strings become List Nat, Python dicts become association lists, machine
floats that only ever feed order comparisons become rationals, wall-clock
instants handed out by datetime.utcnow become abstract naturals ordered as
the clock is, and every fallible operation returns Except or Option.
Functions that the source obtains from external collaborators (ChromaDB
nearest-neighbour retrieval, the sentence-transformer embedding model, the
LLM backend, PDF and DOCX parsers, the codecs for utf-8 and utf-16) enter
the embedding as explicit parameters of the functions that call them; every
piece of control flow written in the repository itself is translated
line by line.
-/

/-! ## Python string primitives used by vector_store.py -/

/-- Python slice-index adjustment: negative indices count from the end and
everything is clamped into [0, n]. -/
def pyAdjIndex (n : Nat) (i : Int) : Nat :=
  if i < 0 then ((n : Int) + i).toNat else min i.toNat n

/-- Python s[i:j] on a list of characters. -/
def pySlice (l : List Char) (i j : Int) : List Char :=
  (l.take (pyAdjIndex l.length j)).drop (pyAdjIndex l.length i)

/-- The in-bounds positions of a period inside the adjusted search
window [a, b), ascending. -/
def rfindCandidates (l : List Char) (a b : Nat) : List Nat :=
  (List.range b).filter fun k => decide (a ≤ k) && (l.getD k ' ' == '.')

/-- Python s.rfind(sub, i, j) specialised to the one-character needle
used by the chunker.  Returns the largest in-bounds index of the needle,
-1 when there is none. -/
def pyRfindDot (l : List Char) (i j : Int) : Int :=
  match (rfindCandidates l (pyAdjIndex l.length i) (pyAdjIndex l.length j)).getLast? with
  | some k => (k : Int)
  | none => -1

/-- The whitespace set of Python str.strip (ASCII fragment). -/
def isPySpace (c : Char) : Bool :=
  c == ' ' || c == '\t' || c == '\n' || c == '\r' || c == '\x0b' || c == '\x0c'

/-- Python s.strip(). -/
def pyStrip (l : List Char) : List Char :=
  ((l.dropWhile isPySpace).reverse.dropWhile isPySpace).reverse

/-! ## VectorStore._chunk_text  (vector_store.py lines 341-368)

The source is a while loop whose index variable is a Python int, so the
embedding keeps the index as Int and runs the loop on explicit fuel: a
result of none means the fuel was exhausted, and a loop that returns none
for every fuel is one the source runs forever. -/

/-- One-to-one translation of the while loop of _chunk_text. -/
def chunkLoop (csize coverlap : Nat) (text : List Char) :
    Nat → Int → List (List Char) → Option (List (List Char))
  | 0, _, _ => none
  | fuel + 1, start, chunks =>
    if start < (text.length : Int) then
      let end0 : Int := start + csize
      let endF : Int :=
        if end0 < (text.length : Int) then
          let searchStart : Int := max (end0 - 100) start
          let sentenceEnd : Int := pyRfindDot text searchStart end0
          if sentenceEnd > start then sentenceEnd + 1 else end0
        else end0
      let chunk := pyStrip (pySlice text start endF)
      let chunks' := if chunk.isEmpty then chunks else chunks ++ [chunk]
      let start' := endF - (coverlap : Int)
      if (text.length : Int) ≤ start' then some chunks'
      else chunkLoop csize coverlap text fuel start' chunks'
    else some chunks

/-- VectorStore._chunk_text with settings.chunk_size and
settings.chunk_overlap made explicit. -/
def chunkText (csize coverlap fuel : Nat) (text : List Char) :
    Option (List (List Char)) :=
  if text.length ≤ csize then some [text]
  else chunkLoop csize coverlap text fuel 0 []

/-! ## datetime

vector_store.py stores a MemoryEntry date in ChromaDB metadata as
date.isoformat() and parses it back with datetime.fromisoformat.  A naive
datetime is embedded structurally; isoformat renders the exact grammar
CPython emits for naive datetimes (microseconds omitted when zero) and
fromisoformat parses that grammar, validating the calendar ranges the
datetime constructor enforces. -/

structure DateTime where
  year : Nat
  month : Nat
  day : Nat
  hour : Nat
  minute : Nat
  second : Nat
  microsecond : Nat
deriving DecidableEq, Repr

def isLeapYear (y : Nat) : Bool :=
  (y % 4 == 0 && y % 100 != 0) || y % 400 == 0

def daysInMonth (y m : Nat) : Nat :=
  if m = 2 then (if isLeapYear y then 29 else 28)
  else if m = 4 ∨ m = 6 ∨ m = 9 ∨ m = 11 then 30
  else 31

/-- The range checks that datetime's constructor enforces. -/
def DateTime.valid (d : DateTime) : Bool :=
  1 ≤ d.year && d.year ≤ 9999 && 1 ≤ d.month && d.month ≤ 12 &&
  1 ≤ d.day && d.day ≤ daysInMonth d.year d.month &&
  d.hour ≤ 23 && d.minute ≤ 59 && d.second ≤ 59 && d.microsecond ≤ 999999

/-- n rendered in decimal, zero-padded to w digits (the %0wd of isoformat). -/
def padDigits (w n : Nat) : List Char :=
  (List.range w).reverse.map fun i => Char.ofNat (48 + n / 10 ^ i % 10)

def DateTime.isoformat (d : DateTime) : List Char :=
  padDigits 4 d.year ++ '-' :: padDigits 2 d.month ++ '-' :: padDigits 2 d.day ++
  'T' :: padDigits 2 d.hour ++ ':' :: padDigits 2 d.minute ++ ':' :: padDigits 2 d.second ++
  (if d.microsecond = 0 then [] else '.' :: padDigits 6 d.microsecond)

/-- Reads exactly w decimal digits, folding them onto acc. -/
def parseDigitsAux (acc : Nat) : Nat → List Char → Option (Nat × List Char)
  | 0, rest => some (acc, rest)
  | _ + 1, [] => none
  | w + 1, c :: rest =>
    if c.isDigit then parseDigitsAux (acc * 10 + (c.toNat - 48)) w rest else none

def expectChar (c : Char) : List Char → Option (List Char)
  | [] => none
  | x :: rest => if x = c then some rest else none

/-- The fractional-seconds tail of the fromisoformat grammar: empty means
zero microseconds, a dot is followed by exactly six digits. -/
def parseMicro : List Char → Option Nat
  | [] => some 0
  | '.' :: r12 =>
    (match parseDigitsAux 0 6 r12 with
     | none => none
     | some (us, r13) => if r13.isEmpty then some us else none)
  | _ => none

def DateTime.fromisoformat (s : List Char) : Option DateTime :=
  match parseDigitsAux 0 4 s with
  | none => none
  | some (y, r1) =>
  match expectChar '-' r1 with
  | none => none
  | some r2 =>
  match parseDigitsAux 0 2 r2 with
  | none => none
  | some (mo, r3) =>
  match expectChar '-' r3 with
  | none => none
  | some r4 =>
  match parseDigitsAux 0 2 r4 with
  | none => none
  | some (da, r5) =>
  match expectChar 'T' r5 with
  | none => none
  | some r6 =>
  match parseDigitsAux 0 2 r6 with
  | none => none
  | some (h, r7) =>
  match expectChar ':' r7 with
  | none => none
  | some r8 =>
  match parseDigitsAux 0 2 r8 with
  | none => none
  | some (mi, r9) =>
  match expectChar ':' r9 with
  | none => none
  | some r10 =>
  match parseDigitsAux 0 2 r10 with
  | none => none
  | some (se, r11) =>
  match parseMicro r11 with
  | none => none
  | some us =>
    if DateTime.valid ⟨y, mo, da, h, mi, se, us⟩ then
      some ⟨y, mo, da, h, mi, se, us⟩
    else none

/-- Propositional equality of Except results is decidable componentwise;
needed so concrete store computations can be settled by decide. -/
instance {ε α : Type} [DecidableEq ε] [DecidableEq α] : DecidableEq (Except ε α)
  | Except.error a, Except.error b => decidable_of_iff (a = b) (by simp)
  | Except.error _, Except.ok _ => isFalse (by simp)
  | Except.ok _, Except.error _ => isFalse (by simp)
  | Except.ok a, Except.ok b => decidable_of_iff (a = b) (by simp)

/-! ## Python dicts and ChromaDB metadata values -/

/-- A ChromaDB metadata value: the scalar types the repository stores. -/
inductive MetaVal where
  | str (s : String)
  | int (n : Int)
  | float (q : ℚ)
  | bool (b : Bool)
deriving DecidableEq, Repr

/-- Python dict as an association list with unique keys kept in insertion
order; dictSet is d[k] = v (overwrite in place, else append), dictGet is
d.get(k). -/
def dictSet {α : Type} : List (String × α) → String → α → List (String × α)
  | [], k, v => [(k, v)]
  | p :: m, k, v => if p.1 == k then (k, v) :: m else p :: dictSet m k v

def dictGet {α : Type} (m : List (String × α)) (k : String) : Option α :=
  (m.find? (fun p => p.1 == k)).map (fun p => p.2)

/-- Python d.update(other): successive item assignment. -/
def dictUpdate {α : Type} (m other : List (String × α)) : List (String × α) :=
  other.foldl (fun acc p => dictSet acc p.1 p.2) m

/-- Python truthiness-based coercion x or None applied to an optional
string-typed metadata value, as in MemoryEntry reconstruction. -/
def pyOrNone (v : Option MetaVal) : Option String :=
  match v with
  | some (MetaVal.str s) => if s = "" then none else some s
  | _ => none

/-! ## api/schemas/models.py : MemoryEntry

The embedding and created_at fields of the pydantic model are never read or
written by the code under verification (the stored vector lives only inside
ChromaDB and created_at is a default-factory timestamp no code path
consults), so they are not carried in the embedded record. -/

structure MemoryEntry where
  id : String
  content : String
  customer : Option String
  project : Option String
  date : DateTime
  source_document_id : String
  chunk_index : Int
  importance_score : ℚ
  metadata : List (String × MetaVal)
deriving DecidableEq, Repr

/-! ## core/memory/vector_store.py : the store operations

The ChromaDB collection is embedded as the list of its records in
insertion order; the sentence-transformer embedding vectors influence only
which neighbours ChromaDB ranks highest, so search takes the raw ChromaDB
result rows as input (see search below) and the stored state keeps, per
id, the document text and the metadata dict the repository wrote. -/

structure VectorStoreState where
  entries : List (String × (String × List (String × MetaVal)))
deriving DecidableEq, Repr

namespace VectorStore

/-- add_memory_entry (vector_store.py lines 104-137): builds the metadata
dict, merges memory_entry.metadata over it, and adds content + metadata
under a fresh uuid (here the parameter newId). -/
def add_memory_entry (st : VectorStoreState) (e : MemoryEntry) (newId : String) :
    String × VectorStoreState :=
  let metadata : List (String × MetaVal) :=
    [("source_document_id", MetaVal.str e.source_document_id),
     ("chunk_index", MetaVal.int e.chunk_index),
     ("customer", MetaVal.str (e.customer.getD "")),
     ("project", MetaVal.str (e.project.getD "")),
     ("date", MetaVal.str (String.mk e.date.isoformat)),
     ("importance_score", MetaVal.float e.importance_score),
     ("is_manual_entry", MetaVal.bool true)]
  let metadata := dictUpdate metadata e.metadata
  (newId, ⟨st.entries ++ [(newId, (e.content, metadata))]⟩)

/-- Rebuilds a MemoryEntry from a stored (content, metadata) pair, exactly
as the constructor calls at vector_store.py lines 183-193 and 214-224 do;
a date that is absent or fails to parse raises in the source and is an
error here. -/
def entryOfStored (memory_id : String) (content : String)
    (metadata : List (String × MetaVal)) : Except String MemoryEntry :=
  match dictGet metadata "date" with
  | some (MetaVal.str ds) =>
    match DateTime.fromisoformat ds.data with
    | some d =>
      match dictGet metadata "source_document_id", dictGet metadata "chunk_index" with
      | some (MetaVal.str sid), some (MetaVal.int ci) =>
        Except.ok
          { id := memory_id
            content := content
            customer := pyOrNone (dictGet metadata "customer")
            project := pyOrNone (dictGet metadata "project")
            date := d
            source_document_id := sid
            chunk_index := ci
            importance_score :=
              match dictGet metadata "importance_score" with
              | some (MetaVal.float q) => q
              | _ => 1
            metadata := metadata }
      | _, _ => Except.error "missing metadata field"
    | none => Except.error "invalid isoformat string"
  | _ => Except.error "invalid isoformat string"

/-- get_memory_entry (vector_store.py lines 203-228): point lookup,
ok none when the id is absent. -/
def get_memory_entry (st : VectorStoreState) (memory_id : String) :
    Except String (Option MemoryEntry) :=
  match dictGet st.entries memory_id with
  | none => Except.ok none
  | some (content, metadata) =>
    (entryOfStored memory_id content metadata).map some

/-- delete_memory_entry (vector_store.py lines 275-284): ChromaDB delete
removes any record with the id (a no-op when absent) and the method then
returns True unconditionally. -/
def delete_memory_entry (st : VectorStoreState) (memory_id : String) :
    VectorStoreState × Bool :=
  (⟨st.entries.filter (fun p => p.1 != memory_id)⟩, true)

/-- One row of a ChromaDB collection.query result: parallel entries of the
ids/metadatas/documents/distances arrays, which ChromaDB returns with equal
lengths.  Quantifying the distance over all of ℚ also covers the source's
0.0 default for a reply without a distances array. -/
structure ChromaHit where
  id : String
  metadata : List (String × MetaVal)
  document : String
  distance : ℚ
deriving DecidableEq, Repr

/-- The result-conversion loop of search (vector_store.py lines 169-194):
similarity 1 - d, threshold skip, MemoryEntry reconstruction in ranking
order; a stored date that fails to parse raises. -/
def searchLoop (similarity_threshold : ℚ) : List ChromaHit → Except String (List MemoryEntry)
  | [] => Except.ok []
  | hit :: rest =>
    if 1 - hit.distance < similarity_threshold then
      searchLoop similarity_threshold rest
    else
      match entryOfStored hit.id hit.document hit.metadata with
      | Except.error e => Except.error e
      | Except.ok entry =>
        match searchLoop similarity_threshold rest with
        | Except.error e => Except.error e
        | Except.ok entries => Except.ok (entry :: entries)

/-- search (vector_store.py lines 139-201).  The embedding model and the
ChromaDB nearest-neighbour lookup (with its metadata where-clause built
from the filters) are the external collaborators; the rows they return
enter here as hits, so the theorems quantify over every query, filter map,
top_k and store content at once. -/
def search (similarity_threshold : ℚ) (hits : List ChromaHit) :
    Except String (List MemoryEntry) :=
  searchLoop similarity_threshold hits

end VectorStore

/-! ## core/rag/rag_engine.py -/

structure Message where
  role : String
  content : String
  timestamp : Nat
deriving DecidableEq, Repr

structure Conversation where
  id : String
  title : Option String
  messages : List Message
  customer : Option String
  project : Option String
  created_at : Nat
  updated_at : Nat
deriving DecidableEq, Repr

structure Query where
  question : String
  conversation_id : Option String
  max_results : Nat
deriving DecidableEq, Repr

structure LLMResponse where
  response : String
  generation_time_ms : Nat
  tokens_used : Nat
deriving DecidableEq, Repr

structure AgentResponse where
  answer : String
  sources : List MemoryEntry
  conversation_id : String
  query_time_ms : Nat
  tokens_used : Option Nat
deriving DecidableEq, Repr

/-- The events query_stream yields. -/
inductive StreamEvent where
  | chunk (content : String) (conversation_id : String)
  | complete (response : AgentResponse) (conversation_id : String)
  | error (message : String) (conversation_id : String)
deriving DecidableEq, Repr

def StreamEvent.isError : StreamEvent → Bool
  | StreamEvent.error _ _ => true
  | _ => false

def StreamEvent.isComplete : StreamEvent → Bool
  | StreamEvent.complete _ _ => true
  | _ => false

structure RAGEngineState where
  conversations : List (String × Conversation)
deriving DecidableEq, Repr

namespace RAGEngine

/-- The auto-generated title (rag_engine.py line 147); the strftime
rendering of the current instant is abstracted to its decimal form. -/
def autoTitle (now : Nat) : String := "Conversation " ++ toString now

/-- create_conversation (rag_engine.py lines 141-153). -/
def create_conversation (st : RAGEngineState) (title customer project : Option String)
    (newId : String) (now : Nat) : Conversation × RAGEngineState :=
  let t : String :=
    match title with
    | some t => if t = "" then autoTitle now else t
    | none => autoTitle now
  let conversation : Conversation :=
    { id := newId, title := some t, messages := [], customer := customer
      project := project, created_at := now, updated_at := now }
  (conversation, ⟨dictSet st.conversations conversation.id conversation⟩)

/-- _get_or_create_conversation (rag_engine.py lines 163-168).  Returns
the conversation together with the table key under which it is stored,
which is where the later in-place mutation of the object lands. -/
def get_or_create_conversation (st : RAGEngineState) (conversation_id : Option String)
    (newId : String) (now : Nat) : Conversation × String × RAGEngineState :=
  match conversation_id with
  | some cid =>
    if cid = "" then
      let (c, st') := create_conversation st none none none newId now
      (c, c.id, st')
    else
      match dictGet st.conversations cid with
      | some conversation => (conversation, cid, st)
      | none =>
        let (c, st') := create_conversation st none none none newId now
        (c, c.id, st')
  | none =>
    let (c, st') := create_conversation st none none none newId now
    (c, c.id, st')

/-- The per-entry source annotation of _build_context (rag_engine.py
lines 176-185). -/
def sourceInfo (i : Nat) (entry : MemoryEntry) : String :=
  let s := "Source " ++ toString i
  let s :=
    match entry.customer with
    | some c => if c = "" then s else s ++ " (Customer: " ++ c ++ ")"
    | none => s
  let s :=
    match entry.project with
    | some p => if p = "" then s else s ++ " (Project: " ++ p ++ ")"
    | none => s
  if entry.source_document_id = "" then s
  else s ++ " (Document: " ++ String.mk (entry.source_document_id.data.take 8) ++ "...)"

/-- _build_context (rag_engine.py lines 170-187). -/
def buildContext (memory_entries : List MemoryEntry) : String :=
  if memory_entries.isEmpty then
    "No relevant information found in the knowledge base."
  else
    String.intercalate ("\n\n")
      (memory_entries.enum.map fun p => sourceInfo (p.1 + 1) p.2 ++ ":\n" ++ p.2.content)

/-- _update_conversation (rag_engine.py lines 209-223): appends the user
and assistant turns to the live conversation object and refreshes
updated_at; the three datetime.utcnow() calls are the instants tUser,
tAsst, tUpd.  The object lives in the table under key, so the mutation is
a write-back through that key. -/
def update_conversation (st : RAGEngineState) (key : String) (conversation : Conversation)
    (question answer : String) (tUser tAsst tUpd : Nat) : RAGEngineState :=
  let conversation :=
    { conversation with
        messages := conversation.messages ++
          [{ role := "user", content := question, timestamp := tUser },
           { role := "assistant", content := answer, timestamp := tAsst }]
        updated_at := tUpd }
  ⟨dictSet st.conversations key conversation⟩

/-- query (rag_engine.py lines 21-68).  The vector-store search outcome and
the LLM backend are external: searchRes is what self.vector_store.search
returned (or the exception it raised), and llm maps the assembled context
to what self.llm_client.generate returned for it (or its exception).  An
Except.error result is the exception propagating out of query. -/
def query (st : RAGEngineState) (q : Query)
    (searchRes : Except String (List MemoryEntry))
    (llm : String → Except String LLMResponse)
    (newId : String) (now tUser tAsst tUpd : Nat) :
    RAGEngineState × Except String AgentResponse :=
  let (conversation, key, st1) := get_or_create_conversation st q.conversation_id newId now
  match searchRes with
  | Except.error e => (st1, Except.error e)
  | Except.ok memory_entries =>
    let context := buildContext memory_entries
    match llm context with
    | Except.error e => (st1, Except.error e)
    | Except.ok llm_response =>
      let response : AgentResponse :=
        { answer := llm_response.response, sources := memory_entries
          conversation_id := conversation.id
          query_time_ms := llm_response.generation_time_ms
          tokens_used := some llm_response.tokens_used }
      (update_conversation st1 key conversation q.question response.answer tUser tAsst tUpd,
       Except.ok response)

/-- query_stream (rag_engine.py lines 70-129).  generate_stream maps the
assembled context to the fragment list the backend delivered and, when it
raised mid-generation, the exception message (none for a clean
completion).  The yielded events are collected in order. -/
def query_stream (st : RAGEngineState) (q : Query)
    (searchRes : Except String (List MemoryEntry))
    (generate_stream : String → List String × Option String)
    (newId freshId : String) (now tUser tAsst tUpd : Nat) :
    List StreamEvent × RAGEngineState :=
  let errId : String :=
    match q.conversation_id with
    | some cid => if cid = "" then freshId else cid
    | none => freshId
  let (conversation, key, st1) := get_or_create_conversation st q.conversation_id newId now
  match searchRes with
  | Except.error e => ([StreamEvent.error e errId], st1)
  | Except.ok memory_entries =>
    let context := buildContext memory_entries
    let (chunks, streamErr) := generate_stream context
    let chunkEvents := chunks.map fun c => StreamEvent.chunk c conversation.id
    let response_text := String.join chunks
    match streamErr with
    | some e => (chunkEvents ++ [StreamEvent.error e errId], st1)
    | none =>
      let response : AgentResponse :=
        { answer := response_text, sources := memory_entries
          conversation_id := conversation.id, query_time_ms := 0, tokens_used := some 0 }
      (chunkEvents ++ [StreamEvent.complete response conversation.id],
       update_conversation st1 key conversation q.question response.answer tUser tAsst tUpd)

/-- delete_conversation (rag_engine.py lines 155-161). -/
def delete_conversation (st : RAGEngineState) (conversation_id : String) :
    RAGEngineState × Bool :=
  match dictGet st.conversations conversation_id with
  | some _ => (⟨st.conversations.filter fun p => p.1 != conversation_id⟩, true)
  | none => (st, false)

end RAGEngine

/-! ## ingestion/processors/document_processor.py -/

/-- Python str.lower, on the ASCII range the handled extensions use. -/
def pyLowerChar (c : Char) : Char :=
  if 'A' ≤ c ∧ c ≤ 'Z' then Char.ofNat (c.toNat + 32) else c

def pyLower (l : List Char) : List Char := l.map pyLowerChar

def PDFProcessor.can_process (filename : List Char) : Bool :=
  (".pdf").data.isSuffixOf (pyLower filename)

def DocxProcessor.can_process (filename : List Char) : Bool :=
  (".docx").data.isSuffixOf (pyLower filename)

def TxtProcessor.can_process (filename : List Char) : Bool :=
  (".txt").data.isSuffixOf (pyLower filename)

def MarkdownProcessor.can_process (filename : List Char) : Bool :=
  (".md").data.isSuffixOf (pyLower filename) ||
  (".markdown").data.isSuffixOf (pyLower filename)

/-- bytes.decode with the latin-1 codec: total, each byte maps to the
code point of the same value. -/
def latin1Decode (bs : List (Fin 256)) : Option (List Char) :=
  some (bs.map fun b => Char.ofNat b.val)

/-- TxtProcessor.extract_text (document_processor.py lines 78-94): try
utf-8, utf-16, latin-1, cp1252 in order, catching UnicodeDecodeError, then
force utf-8 with errors="replace".  The utf-8/utf-16/cp1252 codecs and the
replacing decoder are stdlib collaborators taken as parameters; latin-1 is
the concrete total decoder above. -/
def TxtProcessor.extract_text
    (utf8 utf16 cp1252 : List (Fin 256) → Option (List Char))
    (utf8Replace : List (Fin 256) → List Char)
    (file_content : List (Fin 256)) : List Char :=
  match utf8 file_content with
  | some s => pyStrip s
  | none =>
    match utf16 file_content with
    | some s => pyStrip s
    | none =>
      match latin1Decode file_content with
      | some s => pyStrip s
      | none =>
        match cp1252 file_content with
        | some s => pyStrip s
        | none => pyStrip (utf8Replace file_content)

inductive DocumentType where
  | pdf | txt | docx | md
deriving DecidableEq, Repr

/-- _get_document_type (document_processor.py lines 181-195). -/
def getDocumentType (filename : List Char) : DocumentType :=
  let fl := pyLower filename
  if (".pdf").data.isSuffixOf fl then DocumentType.pdf
  else if (".docx").data.isSuffixOf fl then DocumentType.docx
  else if (".txt").data.isSuffixOf fl then DocumentType.txt
  else if (".md").data.isSuffixOf fl || (".markdown").data.isSuffixOf fl then DocumentType.md
  else DocumentType.txt

structure Document where
  id : String
  filename : List Char
  content : List Char
  document_type : DocumentType
  customer : Option String
  project : Option String
  date : Nat
  metadata : List (String × MetaVal)
  file_size : Nat
deriving DecidableEq, Repr

/-- One registered handler: the can_process/extract_text capability pair. -/
structure DocumentProcessor where
  can_process : List Char → Bool
  extract_text : List (Fin 256) → Except String (List Char)

/-- The fixed registration order of DocumentIngestionService.__init__
(document_processor.py lines 113-119); the PDF and DOCX library-backed
extractors are parameters, TXT and Markdown are built from the codecs. -/
def defaultProcessors
    (pdfExtract docxExtract : List (Fin 256) → Except String (List Char))
    (utf8 utf16 cp1252 : List (Fin 256) → Option (List Char))
    (utf8Replace : List (Fin 256) → List Char) : List DocumentProcessor :=
  [⟨PDFProcessor.can_process, pdfExtract⟩,
   ⟨DocxProcessor.can_process, docxExtract⟩,
   ⟨TxtProcessor.can_process,
     fun bs => Except.ok (TxtProcessor.extract_text utf8 utf16 cp1252 utf8Replace bs)⟩,
   ⟨MarkdownProcessor.can_process,
     fun bs =>
       match utf8 bs with
       | some s => Except.ok (pyStrip s)
       | none => Except.error "Failed to process Markdown"⟩]

/-- DocumentIngestionService.process_document (document_processor.py
lines 121-164): first matching processor wins, no match is an unsupported
format error, extraction failures propagate, and an all-whitespace
extraction is the empty-document error. -/
def process_document (processors : List DocumentProcessor)
    (filename : List Char) (file_content : List (Fin 256))
    (customer project : Option String) (metadata : Option (List (String × MetaVal)))
    (newId : String) (now : Nat) : Except String Document :=
  match processors.find? (fun p => p.can_process filename) with
  | none => Except.error ("No processor available for file type: " ++ String.mk filename)
  | some processor =>
    match processor.extract_text file_content with
    | Except.error e => Except.error e
    | Except.ok content =>
      if (pyStrip content).isEmpty then
        Except.error "Document appears to be empty or unreadable"
      else
        Except.ok
          { id := newId, filename := filename, content := content
            document_type := getDocumentType filename
            customer := customer, project := project, date := now
            metadata := metadata.getD [], file_size := file_content.length }

/-! ## Concrete sample data used by witnesses and counterexamples -/

def sampleDate : DateTime := ⟨2024, 1, 2, 3, 4, 5, 0⟩

def sampleMeta : List (String × MetaVal) :=
  [("source_document_id", MetaVal.str "doc1"), ("chunk_index", MetaVal.int 0),
   ("customer", MetaVal.str ""), ("project", MetaVal.str ""),
   ("date", MetaVal.str "2024-01-02T03:04:05"),
   ("importance_score", MetaVal.float 1), ("is_manual_entry", MetaVal.bool true)]

def sampleHit : VectorStore.ChromaHit := ⟨"m1", sampleMeta, "hello", 1/10⟩

def sampleEntry : MemoryEntry := ⟨"m1", "hello", none, none, sampleDate, "doc1", 0, 1, sampleMeta⟩

/-- A memory entry whose customer label is the empty string. -/
def emptyLabelEntry : MemoryEntry := ⟨"", "note", some "", none, sampleDate, "self", 0, 1, []⟩

/-- What add_memory_entry stores for emptyLabelEntry. -/
def emptyLabelMeta : List (String × MetaVal) :=
  [("source_document_id", MetaVal.str "self"), ("chunk_index", MetaVal.int 0),
   ("customer", MetaVal.str ""), ("project", MetaVal.str ""),
   ("date", MetaVal.str "2024-01-02T03:04:05"),
   ("importance_score", MetaVal.float 1), ("is_manual_entry", MetaVal.bool true)]

/-- What get_memory_entry returns for emptyLabelEntry after the round trip. -/
def emptyLabelFetched : MemoryEntry := ⟨"m1", "note", none, none, sampleDate, "self", 0, 1, emptyLabelMeta⟩

/-! ## Helper lemmas about the dict model -/

theorem dictGet_dictSet_self {α : Type} (m : List (String × α)) (k : String) (v : α) :
    dictGet (dictSet m k v) k = some v := by
  induction m with
  | nil => simp [dictSet, dictGet, List.find?]
  | cons p m ih =>
    by_cases hp : p.1 == k
    · simp [dictSet, hp, dictGet, List.find?]
    · simp only [dictSet, hp, if_false, Bool.false_eq_true]
      simpa [dictGet, List.find?, hp] using ih

theorem dictGet_dictSet_ne {α : Type} (m : List (String × α)) (k k' : String) (v : α)
    (h : k' ≠ k) : dictGet (dictSet m k v) k' = dictGet m k' := by
  have hbeq : (k == k') = false := by
    simpa using fun hc => h (hc.symm)
  induction m with
  | nil => simp [dictSet, dictGet, List.find?, hbeq]
  | cons p m ih =>
    by_cases hp : p.1 == k
    · have hp' : (p.1 == k') = false := by
        have : p.1 = k := by simpa using hp
        simpa [this] using hbeq
      simp [dictSet, hp, dictGet, List.find?, hbeq, hp']
    · simp only [dictSet, hp, if_false, Bool.false_eq_true]
      by_cases hq : p.1 == k'
      · simp [dictGet, List.find?, hq]
      · simpa [dictGet, List.find?, hq] using ih

theorem dictGet_dictUpdate_of_not_mem {α : Type} (other m : List (String × α)) (k : String)
    (h : ∀ p ∈ other, ¬ p.1 = k) : dictGet (dictUpdate m other) k = dictGet m k := by
  induction other generalizing m with
  | nil => rfl
  | cons p t ih =>
    have hstep : dictUpdate m (p :: t) = dictUpdate (dictSet m p.1 p.2) t := rfl
    rw [hstep, ih _ (fun q hq => h q (List.mem_cons_of_mem _ hq)),
      dictGet_dictSet_ne _ _ _ _ (fun hc => h p (List.mem_cons_self _ _) hc.symm)]

theorem dictGet_append_right {α : Type} (a b : List (String × α)) (k : String)
    (h : dictGet a k = none) : dictGet (a ++ b) k = dictGet b k := by
  have hfind : a.find? (fun p => p.1 == k) = none := by
    cases hf : a.find? (fun p => p.1 == k) with
    | none => rfl
    | some p => rw [dictGet, hf] at h; simp at h
  rw [dictGet, List.find?_append, hfind, Option.none_or, dictGet]

/-! ## Helper lemmas about pyStrip -/

theorem mem_dropWhile_of_mem {l : List Char} {c : Char}
    (hm : c ∈ l) (hc : isPySpace c = false) : c ∈ l.dropWhile isPySpace := by
  induction l with
  | nil => cases hm
  | cons x t ih =>
    by_cases hx : isPySpace x
    · rw [List.dropWhile_cons, if_pos hx]
      rcases List.mem_cons.mp hm with rfl | hmt
      · rw [hx] at hc; cases hc
      · exact ih hmt
    · rw [List.dropWhile_cons, if_neg hx]
      exact hm

theorem mem_pyStrip {l : List Char} {c : Char}
    (hm : c ∈ l) (hc : isPySpace c = false) : c ∈ pyStrip l := by
  unfold pyStrip
  rw [List.mem_reverse]
  exact mem_dropWhile_of_mem (List.mem_reverse.mpr (mem_dropWhile_of_mem hm hc)) hc

/-! ## C1: the similarity threshold in search -/

theorem searchLoop_mem (θ : ℚ) (hits : List VectorStore.ChromaHit) :
    ∀ (entries : List MemoryEntry), VectorStore.searchLoop θ hits = Except.ok entries →
      ∀ e ∈ entries, ∃ hit ∈ hits, θ ≤ 1 - hit.distance ∧
        VectorStore.entryOfStored hit.id hit.document hit.metadata = Except.ok e := by
  induction hits with
  | nil =>
    intro entries h e he
    simp only [VectorStore.searchLoop] at h
    cases h
    cases he
  | cons hit rest ih =>
    intro entries h e he
    simp only [VectorStore.searchLoop] at h
    by_cases hlt : 1 - hit.distance < θ
    · rw [if_pos hlt] at h
      obtain ⟨hh, hhm, hle, heq⟩ := ih entries h e he
      exact ⟨hh, List.mem_cons_of_mem _ hhm, hle, heq⟩
    · rw [if_neg hlt] at h
      cases hos : VectorStore.entryOfStored hit.id hit.document hit.metadata with
      | error msg => rw [hos] at h; cases h
      | ok entry =>
        rw [hos] at h
        cases hrest : VectorStore.searchLoop θ rest with
        | error msg => rw [hrest] at h; cases h
        | ok entries' =>
          rw [hrest] at h
          cases h
          rcases List.mem_cons.mp he with rfl | he'
          · exact ⟨hit, List.mem_cons_self _ _, le_of_not_lt hlt, hos⟩
          · obtain ⟨hh, hhm, hle, heq⟩ := ih entries' hrest e he'
            exact ⟨hh, List.mem_cons_of_mem _ hhm, hle, heq⟩

/-- C1: VectorStore.search never returns a MemoryEntry whose computed
similarity score (1 minus the cosine distance the store reported for its
result row) is strictly below the configured similarity threshold: every
returned entry is reconstructed from a row whose similarity clears the
threshold.  Moreover search can return zero results on a non-empty result
set (here at the default threshold 0.7), so fewer than top_k — even none —
may come back from a non-empty store. -/
theorem search_respects_similarity_threshold :
    (∀ (similarity_threshold : ℚ) (hits : List VectorStore.ChromaHit) (entries : List MemoryEntry),
        VectorStore.search similarity_threshold hits = Except.ok entries →
        ∀ e ∈ entries, ∃ hit ∈ hits, similarity_threshold ≤ 1 - hit.distance ∧
          VectorStore.entryOfStored hit.id hit.document hit.metadata = Except.ok e) ∧
    (∃ hits : List VectorStore.ChromaHit, hits ≠ [] ∧
        VectorStore.search (7/10 : ℚ) hits = Except.ok []) := by
  constructor
  · intro θ hits entries h e he
    exact searchLoop_mem θ hits entries h e he
  · exact ⟨[⟨"m1", sampleMeta, "hello", 1/2⟩], by simp,
      by norm_num [VectorStore.search, VectorStore.searchLoop]⟩

/-- C1 witness: at threshold 0.7, a concrete row at distance 0.1 is
returned and the theorem exhibits its clearing row. -/
theorem search_respects_similarity_threshold_witness :
    VectorStore.search (7/10 : ℚ) [sampleHit] = Except.ok [sampleEntry] ∧
    ∃ hit ∈ [sampleHit], (7/10 : ℚ) ≤ 1 - hit.distance ∧
      VectorStore.entryOfStored hit.id hit.document hit.metadata = Except.ok sampleEntry := by
  have hE : VectorStore.entryOfStored ("m1") ("hello") sampleMeta = Except.ok sampleEntry := by
    decide
  have hs : VectorStore.search (7/10 : ℚ) [sampleHit] = Except.ok [sampleEntry] := by
    norm_num [VectorStore.search, VectorStore.searchLoop, sampleHit, hE]
  exact ⟨hs, search_respects_similarity_threshold.1 (7/10) [sampleHit] [sampleEntry] hs
    sampleEntry (by simp)⟩

/-! ## C3: the single-chunk branch of _chunk_text -/

/-- C3 counterexample: for the three-character text consisting of a space,
the letter a and a space, with chunk_size 10, _chunk_text returns the text
as-is, not the trimmed text the claim promises — the short-input branch
performs no strip. -/
theorem chunk_short_text_counterexample :
    chunkText 10 2 5 (" a ").data = some [(" a ").data] ∧
    pyStrip ((" a ").data) ≠ (" a ").data ∧
    chunkText 10 2 5 (" a ").data ≠ some [pyStrip ((" a ").data)] := by decide

/-- C3 (amended): for every text whose length is at most chunk_size,
_chunk_text returns exactly one chunk, and that chunk is the input text
unchanged (not trimmed). -/
theorem chunkText_short_input (csize coverlap fuel : Nat) (text : List Char)
    (h : text.length ≤ csize) : chunkText csize coverlap fuel text = some [text] := by
  unfold chunkText
  rw [if_pos h]

/-- C3 witness: the amended theorem applied to a concrete short text. -/
theorem chunkText_short_input_witness :
    ("ab").data.length ≤ 10 ∧ chunkText 10 2 5 ("ab").data = some [("ab").data] :=
  ⟨by decide, chunkText_short_input 10 2 5 (("ab").data) (by decide)⟩

/-! ## C7: deleting missing ids -/

theorem dictGet_filter_ne {α : Type} (l : List (String × α)) (k : String) :
    dictGet (l.filter fun p => p.1 != k) k = none := by
  rw [dictGet, Option.map_eq_none']
  exact List.find?_eq_none.mpr fun p hp => by
    have := (List.mem_filter.mp hp).2
    simp only [bne_iff_ne, ne_eq] at this
    simp [this]

theorem find?_eq_none_of_dictGet_none {α : Type} (l : List (String × α)) (k : String)
    (h : dictGet l k = none) : l.find? (fun p => p.1 == k) = none := by
  cases hf : l.find? (fun p => p.1 == k) with
  | none => rfl
  | some p => rw [dictGet, hf] at h; cases h

/-- C7 counterexample: deleting a memory entry whose id is not in the
store returns True — the very outcome a successful delete returns, and the
one the HTTP layer (routes/memory.py) treats as success, where a False
result is what it maps to a 404 not-found response.  So the store-layer
delete of a missing id does not produce a not-found outcome. -/
theorem delete_missing_memory_entry_counterexample :
    (VectorStore.delete_memory_entry ⟨[]⟩ ("missing")).2 = true ∧
    ¬ (VectorStore.delete_memory_entry ⟨[]⟩ ("missing")).2 = false := by decide

/-- C7 (amended): deleting a non-existent conversation returns False (the
not-found outcome) without raising; deleting a non-existent memory entry
at the store layer returns True — an idempotent no-op success, not a
not-found outcome — without raising; and in both layers a second delete of
a just-deleted id leaves the state unchanged and returns exactly what
deleting a non-existent id returns. -/
theorem delete_idempotent :
    (∀ (st : RAGEngineState) (cid : String), dictGet st.conversations cid = none →
        RAGEngine.delete_conversation st cid = (st, false)) ∧
    (∀ (st : VectorStoreState) (mid : String), dictGet st.entries mid = none →
        VectorStore.delete_memory_entry st mid = (st, true)) ∧
    (∀ (st : RAGEngineState) (cid : String),
        dictGet ((RAGEngine.delete_conversation st cid).1).conversations cid = none ∧
        RAGEngine.delete_conversation ((RAGEngine.delete_conversation st cid).1) cid =
          ((RAGEngine.delete_conversation st cid).1, false)) ∧
    (∀ (st : VectorStoreState) (mid : String),
        dictGet ((VectorStore.delete_memory_entry st mid).1).entries mid = none ∧
        VectorStore.delete_memory_entry ((VectorStore.delete_memory_entry st mid).1) mid =
          ((VectorStore.delete_memory_entry st mid).1, true)) := by
  have hconv : ∀ (st : RAGEngineState) (cid : String), dictGet st.conversations cid = none →
      RAGEngine.delete_conversation st cid = (st, false) := by
    intro st cid h
    unfold RAGEngine.delete_conversation
    rw [h]
  have hmem : ∀ (st : VectorStoreState) (mid : String), dictGet st.entries mid = none →
      VectorStore.delete_memory_entry st mid = (st, true) := by
    intro st mid h
    unfold VectorStore.delete_memory_entry
    have : st.entries.filter (fun p => p.1 != mid) = st.entries :=
      List.filter_eq_self.mpr fun p hp => by
        have := List.find?_eq_none.mp (find?_eq_none_of_dictGet_none _ _ h) p hp
        simpa using this
    rw [this]
  refine ⟨hconv, hmem, ?_, ?_⟩
  · intro st cid
    have hnone : dictGet ((RAGEngine.delete_conversation st cid).1).conversations cid = none := by
      unfold RAGEngine.delete_conversation
      cases h : dictGet st.conversations cid with
      | none => exact h
      | some c => exact dictGet_filter_ne _ _
    exact ⟨hnone, hconv _ _ hnone⟩
  · intro st mid
    have hnone : dictGet ((VectorStore.delete_memory_entry st mid).1).entries mid = none :=
      dictGet_filter_ne _ _
    exact ⟨hnone, hmem _ _ hnone⟩

/-- C7 witness: both not-found shapes at a concrete state: the conversation
table reports not-found with False, the store reports True. -/
theorem delete_idempotent_witness :
    RAGEngine.delete_conversation ⟨[]⟩ ("c1") = (⟨[]⟩, false) ∧
    VectorStore.delete_memory_entry ⟨[]⟩ ("m1") = (⟨[]⟩, true) :=
  ⟨delete_idempotent.1 ⟨[]⟩ ("c1") (by decide),
   delete_idempotent.2.1 ⟨[]⟩ ("m1") (by decide)⟩

/-! ## C10: the TXT multi-encoding fallback -/

/-- C10: TxtProcessor.extract_text returns a (possibly empty) string for
every byte string and never raises: whatever the utf-8 and utf-16 codecs
do, the result is the stripped first successful decode among utf-8, utf-16
and latin-1 — latin-1 succeeds on every byte sequence, so the cp1252
attempt and the final utf-8-with-replacement fallback can never influence
the result (they are unreachable). -/
theorem txt_extract_total_cp1252_unreachable :
    (∀ (utf8 utf16 cp cp' : List (Fin 256) → Option (List Char))
        (rep rep' : List (Fin 256) → List Char) (bs : List (Fin 256)),
        TxtProcessor.extract_text utf8 utf16 cp rep bs =
          TxtProcessor.extract_text utf8 utf16 cp' rep' bs) ∧
    (∀ (utf8 utf16 cp : List (Fin 256) → Option (List Char))
        (rep : List (Fin 256) → List Char) (bs : List (Fin 256)),
        ∃ s, TxtProcessor.extract_text utf8 utf16 cp rep bs = pyStrip s ∧
          (utf8 bs = some s ∨ (utf8 bs = none ∧ utf16 bs = some s) ∨
           (utf8 bs = none ∧ utf16 bs = none ∧ s = bs.map fun b => Char.ofNat b.val))) := by
  constructor
  · intro u8 u16 cp cp' rep rep' bs
    unfold TxtProcessor.extract_text
    cases u8 bs <;> cases u16 bs <;> simp [latin1Decode]
  · intro u8 u16 cp rep bs
    unfold TxtProcessor.extract_text
    cases h8 : u8 bs with
    | some s => exact ⟨s, rfl, Or.inl rfl⟩
    | none =>
      cases h16 : u16 bs with
      | some s => exact ⟨s, rfl, Or.inr (Or.inl ⟨rfl, rfl⟩)⟩
      | none =>
        refine ⟨bs.map fun b => Char.ofNat b.val, ?_, Or.inr (Or.inr ⟨rfl, rfl, rfl⟩)⟩
        simp [latin1Decode]

/-! ## C8: ingestion failure modes -/

/-- C8: process_document fails with the explicit unsupported-format error
whenever no registered processor's can_process accepts the filename (the
dispatch is a first-match scan of the fixed registration order, never the
content), and fails with the document-appears-empty error — never an empty
success — whenever the matched processor extracts content that strips to
nothing. -/
theorem process_document_failure_modes :
    (∀ (pdfE docxE : List (Fin 256) → Except String (List Char))
        (u8 u16 cp : List (Fin 256) → Option (List Char)) (rep : List (Fin 256) → List Char)
        (filename : List Char) (content : List (Fin 256))
        (customer project : Option String) (md : Option (List (String × MetaVal)))
        (newId : String) (now : Nat),
        (∀ p ∈ defaultProcessors pdfE docxE u8 u16 cp rep, p.can_process filename = false) →
        process_document (defaultProcessors pdfE docxE u8 u16 cp rep) filename content
            customer project md newId now =
          Except.error ("No processor available for file type: " ++ String.mk filename)) ∧
    (∀ (processors : List DocumentProcessor) (filename : List Char) (content : List (Fin 256))
        (customer project : Option String) (md : Option (List (String × MetaVal)))
        (newId : String) (now : Nat) (p : DocumentProcessor) (s : List Char),
        processors.find? (fun q => q.can_process filename) = some p →
        p.extract_text content = Except.ok s → pyStrip s = [] →
        process_document processors filename content customer project md newId now =
          Except.error ("Document appears to be empty or unreadable")) := by
  constructor
  · intro pdfE docxE u8 u16 cp rep filename content customer project md newId now h
    have hnone : (defaultProcessors pdfE docxE u8 u16 cp rep).find?
        (fun q => q.can_process filename) = none :=
      List.find?_eq_none.mpr fun p hp => by simp [h p hp]
    unfold process_document
    rw [hnone]
  · intro processors filename content customer project md newId now p s hf he hs
    unfold process_document
    simp [hf, he, hs]

/-- C8 witness: a filename no processor accepts is rejected as unsupported,
and a TXT file whose bytes decode to whitespace only is rejected as empty. -/
theorem process_document_failure_modes_witness :
    process_document
        (defaultProcessors (fun _ => Except.ok []) (fun _ => Except.ok [])
          (fun _ => none) (fun _ => none) (fun _ => none) (fun _ => []))
        (("x.xyz").data) [] none none none ("id") 0 =
      Except.error ("No processor available for file type: " ++ String.mk (("x.xyz").data)) ∧
    process_document
        (defaultProcessors (fun _ => Except.ok []) (fun _ => Except.ok [])
          (fun _ => none) (fun _ => none) (fun _ => none) (fun _ => []))
        (("a.txt").data) [] none none none ("id") 0 =
      Except.error ("Document appears to be empty or unreadable") := by
  constructor
  · refine process_document_failure_modes.1 _ _ _ _ _ _ _ _ _ _ _ _ _ ?_
    intro p hp
    simp only [defaultProcessors, List.mem_cons, List.not_mem_nil, or_false] at hp
    rcases hp with rfl | rfl | rfl | rfl <;> decide
  · exact process_document_failure_modes.2 _ _ _ _ _ _ _ _ _ [] rfl rfl rfl

/-! ## C4, C5, C9: the RAG engine conversation lifecycle -/

theorem get_or_create_conversation_lookup (st : RAGEngineState) (cid : Option String)
    (newId : String) (now : Nat) :
    dictGet (RAGEngine.get_or_create_conversation st cid newId now).2.2.conversations
        (RAGEngine.get_or_create_conversation st cid newId now).2.1 =
      some (RAGEngine.get_or_create_conversation st cid newId now).1 := by
  unfold RAGEngine.get_or_create_conversation RAGEngine.create_conversation
  cases cid with
  | none => exact dictGet_dictSet_self _ _ _
  | some c =>
    by_cases hc : c = ""
    · simp only [hc, if_pos rfl]
      exact dictGet_dictSet_self _ _ _
    · simp only [if_neg hc]
      cases h : dictGet st.conversations c with
      | none => exact dictGet_dictSet_self _ _ _
      | some conv => exact h

/-- C5: when the generation stream raises mid-generation, query_stream
emits the chunk events already produced followed by exactly one error
event carrying the error message and the best-known conversation id, no
complete event, the generator terminates normally, and the state is
exactly the state from conversation resolution: the resolved conversation
still holds its original message list — the partial answer is never
appended. -/
theorem query_stream_error_is_terminal
    (st : RAGEngineState) (q : Query) (memory_entries : List MemoryEntry)
    (generate_stream : String → List String × Option String) (errMsg : String)
    (newId freshId : String) (now tUser tAsst tUpd : Nat)
    (hfail : (generate_stream (RAGEngine.buildContext memory_entries)).2 = some errMsg) :
    ((RAGEngine.query_stream st q (Except.ok memory_entries) generate_stream
        newId freshId now tUser tAsst tUpd).1.countP (fun ev => ev.isError) = 1) ∧
    ((RAGEngine.query_stream st q (Except.ok memory_entries) generate_stream
        newId freshId now tUser tAsst tUpd).1.countP (fun ev => ev.isComplete) = 0) ∧
    ((RAGEngine.query_stream st q (Except.ok memory_entries) generate_stream
        newId freshId now tUser tAsst tUpd).1.getLast? =
      some (StreamEvent.error errMsg
        (match q.conversation_id with
         | some cid => if cid = "" then freshId else cid
         | none => freshId))) ∧
    ((RAGEngine.query_stream st q (Except.ok memory_entries) generate_stream
        newId freshId now tUser tAsst tUpd).2 =
      (RAGEngine.get_or_create_conversation st q.conversation_id newId now).2.2) ∧
    (dictGet (RAGEngine.query_stream st q (Except.ok memory_entries) generate_stream
          newId freshId now tUser tAsst tUpd).2.conversations
        (RAGEngine.get_or_create_conversation st q.conversation_id newId now).2.1 =
      some (RAGEngine.get_or_create_conversation st q.conversation_id newId now).1) := by
  cases hr : RAGEngine.get_or_create_conversation st q.conversation_id newId now with
  | mk conversation kst =>
  cases kst with
  | mk key st1 =>
  cases hg : generate_stream (RAGEngine.buildContext memory_entries) with
  | mk chunks serr =>
  rw [hg] at hfail
  simp only at hfail
  subst hfail
  have hres : RAGEngine.query_stream st q (Except.ok memory_entries) generate_stream
      newId freshId now tUser tAsst tUpd =
      ((chunks.map fun c => StreamEvent.chunk c conversation.id) ++
        [StreamEvent.error errMsg
          (match q.conversation_id with
           | some cid => if cid = "" then freshId else cid
           | none => freshId)],
       st1) := by
    simp only [RAGEngine.query_stream]
    rw [hr, hg]
  have hlook := get_or_create_conversation_lookup st q.conversation_id newId now
  rw [hr] at hlook
  rw [hres]
  refine ⟨?_, ?_, List.getLast?_concat _, rfl, hlook⟩
  · rw [List.countP_append, List.countP_map]
    have h0 : List.countP
        ((fun ev => StreamEvent.isError ev) ∘ fun c => StreamEvent.chunk c conversation.id)
        chunks = 0 :=
      List.countP_eq_zero.mpr fun a _ => by simp [StreamEvent.isError, Function.comp]
    rw [h0]
    rfl
  · rw [List.countP_append, List.countP_map]
    have h0 : List.countP
        ((fun ev => StreamEvent.isComplete ev) ∘ fun c => StreamEvent.chunk c conversation.id)
        chunks = 0 :=
      List.countP_eq_zero.mpr fun a _ => by simp [StreamEvent.isComplete, Function.comp]
    rw [h0]
    rfl

/-- C5 witness: a concrete stream that delivers one fragment and then
raises yields exactly one error event. -/
theorem query_stream_error_is_terminal_witness :
    ((RAGEngine.query_stream ⟨[]⟩ ⟨"hi", none, 5⟩ (Except.ok [])
        (fun _ => (["partial"], some "boom")) "c1" "f1" 0 1 2 3).1.countP
      (fun ev => ev.isError) = 1) ∧
    ((RAGEngine.query_stream ⟨[]⟩ ⟨"hi", none, 5⟩ (Except.ok [])
        (fun _ => (["partial"], some "boom")) "c1" "f1" 0 1 2 3).1.countP
      (fun ev => ev.isComplete) = 0) :=
  ⟨(query_stream_error_is_terminal ⟨[]⟩ ⟨"hi", none, 5⟩ []
      (fun _ => (["partial"], some "boom")) "boom" "c1" "f1" 0 1 2 3 rfl).1,
   (query_stream_error_is_terminal ⟨[]⟩ ⟨"hi", none, 5⟩ []
      (fun _ => (["partial"], some "boom")) "boom" "c1" "f1" 0 1 2 3 rfl).2.1⟩

/-- C9: when query is called without a usable conversation id and the
search or the generation then fails, the exception propagates (the result
is that error) but the conversation created at the start of the call stays
registered in the table, with an empty message list — query is not atomic
with respect to conversation creation. -/
theorem query_failure_keeps_fresh_conversation
    (st : RAGEngineState) (q : Query) (searchRes : Except String (List MemoryEntry))
    (llm : String → Except String LLMResponse) (newId : String) (now tUser tAsst tUpd : Nat)
    (e : String)
    (hfresh : q.conversation_id = none ∨
      ∃ cid, q.conversation_id = some cid ∧ dictGet st.conversations cid = none)
    (hfail : searchRes = Except.error e ∨
      ∃ mems, searchRes = Except.ok mems ∧
        llm (RAGEngine.buildContext mems) = Except.error e) :
    (RAGEngine.query st q searchRes llm newId now tUser tAsst tUpd).2 = Except.error e ∧
    dictGet (RAGEngine.query st q searchRes llm newId now tUser tAsst tUpd).1.conversations
        newId =
      some { id := newId, title := some (RAGEngine.autoTitle now), messages := []
             customer := none, project := none, created_at := now, updated_at := now } := by
  have hcreate : RAGEngine.get_or_create_conversation st q.conversation_id newId now =
      ({ id := newId, title := some (RAGEngine.autoTitle now), messages := []
         customer := none, project := none, created_at := now, updated_at := now },
       newId,
       ⟨dictSet st.conversations newId
         { id := newId, title := some (RAGEngine.autoTitle now), messages := []
           customer := none, project := none, created_at := now, updated_at := now }⟩) := by
    rcases hfresh with hnone | ⟨cid, hcid, hmiss⟩
    · rw [hnone]
      rfl
    · rw [hcid]
      simp only [RAGEngine.get_or_create_conversation]
      by_cases hc : cid = ""
      · rw [if_pos hc]
        rfl
      · rw [if_neg hc, hmiss]
        rfl
  rcases hfail with hserr | ⟨mems, hok, herr⟩
  · rw [hserr]
    simp only [RAGEngine.query]
    rw [hcreate]
    exact ⟨by trivial, dictGet_dictSet_self _ _ _⟩
  · rw [hok]
    simp only [RAGEngine.query]
    rw [hcreate]
    simp only [herr]
    exact ⟨by trivial, dictGet_dictSet_self _ _ _⟩

/-- C9 witness: a failing search right after conversation creation leaves
the fresh empty conversation in the table and propagates the error. -/
theorem query_failure_keeps_fresh_conversation_witness :
    (RAGEngine.query ⟨[]⟩ ⟨"q", none, 5⟩ (Except.error "down")
        (fun _ => Except.error "x") "c1" 0 1 2 3).2 = Except.error "down" ∧
    dictGet (RAGEngine.query ⟨[]⟩ ⟨"q", none, 5⟩ (Except.error "down")
        (fun _ => Except.error "x") "c1" 0 1 2 3).1.conversations "c1" =
      some { id := "c1", title := some (RAGEngine.autoTitle 0), messages := []
             customer := none, project := none, created_at := 0, updated_at := 0 } :=
  query_failure_keeps_fresh_conversation ⟨[]⟩ ⟨"q", none, 5⟩ (Except.error "down")
    (fun _ => Except.error "x") "c1" 0 1 2 3 "down" (Or.inl rfl) (Or.inl rfl)

/-- C4: a successful query appends exactly two messages to the resolved
conversation — a user turn carrying the question then an assistant turn
carrying the answer — and, provided the clock did not run backwards since
the conversation was last touched, updated_at does not decrease and the
invariant created_at ≤ updated_at is preserved. -/
theorem query_success_appends_two
    (st : RAGEngineState) (q : Query) (memory_entries : List MemoryEntry)
    (llm : String → Except String LLMResponse) (llm_response : LLMResponse)
    (newId : String) (now tUser tAsst tUpd : Nat)
    (hllm : llm (RAGEngine.buildContext memory_entries) = Except.ok llm_response)
    (hupd : (RAGEngine.get_or_create_conversation st q.conversation_id newId now).1.updated_at ≤
      tUpd)
    (hinv : (RAGEngine.get_or_create_conversation st q.conversation_id newId now).1.created_at ≤
      (RAGEngine.get_or_create_conversation st q.conversation_id newId now).1.updated_at) :
    ∃ response : AgentResponse,
      (RAGEngine.query st q (Except.ok memory_entries) llm newId now tUser tAsst tUpd).2 =
        Except.ok response ∧
      response.answer = llm_response.response ∧
      ∃ conv' : Conversation,
        dictGet (RAGEngine.query st q (Except.ok memory_entries) llm newId now
              tUser tAsst tUpd).1.conversations
            (RAGEngine.get_or_create_conversation st q.conversation_id newId now).2.1 =
          some conv' ∧
        conv'.messages =
          (RAGEngine.get_or_create_conversation st q.conversation_id newId now).1.messages ++
            [{ role := "user", content := q.question, timestamp := tUser },
             { role := "assistant", content := response.answer, timestamp := tAsst }] ∧
        conv'.messages.length =
          (RAGEngine.get_or_create_conversation st q.conversation_id
              newId now).1.messages.length + 2 ∧
        (RAGEngine.get_or_create_conversation st q.conversation_id newId now).1.updated_at ≤
          conv'.updated_at ∧
        conv'.created_at ≤ conv'.updated_at := by
  cases hr : RAGEngine.get_or_create_conversation st q.conversation_id newId now with
  | mk conversation kst =>
    cases kst with
    | mk key st1 =>
      have hq : RAGEngine.query st q (Except.ok memory_entries) llm newId now tUser tAsst tUpd =
          (RAGEngine.update_conversation st1 key conversation q.question llm_response.response
            tUser tAsst tUpd,
           Except.ok
            { answer := llm_response.response, sources := memory_entries
              conversation_id := conversation.id
              query_time_ms := llm_response.generation_time_ms
              tokens_used := some llm_response.tokens_used }) := by
        simp only [RAGEngine.query]
        rw [hr, hllm]
      rw [hr] at hupd hinv
      rw [hq]
      refine ⟨_, rfl, rfl, ?_⟩
      refine ⟨_, dictGet_dictSet_self _ _ _, rfl, by simp, ?_, ?_⟩
      · simpa using hupd
      · simp only []
        exact le_trans (by simpa using hinv) (by simpa using hupd)

/-- C4 witness: a concrete successful query on an empty engine: the fresh
conversation ends with exactly two messages. -/
theorem query_success_appends_two_witness :
    ∃ response : AgentResponse, ∃ conv' : Conversation,
      (RAGEngine.query ⟨[]⟩ ⟨"q", none, 5⟩ (Except.ok [])
          (fun _ => Except.ok ⟨"ans", 3, 7⟩) "c1" 0 1 2 3).2 = Except.ok response ∧
      dictGet (RAGEngine.query ⟨[]⟩ ⟨"q", none, 5⟩ (Except.ok [])
            (fun _ => Except.ok ⟨"ans", 3, 7⟩) "c1" 0 1 2 3).1.conversations
          (RAGEngine.get_or_create_conversation ⟨[]⟩ none "c1" 0).2.1 = some conv' ∧
      conv'.messages.length =
        (RAGEngine.get_or_create_conversation ⟨[]⟩ none "c1" 0).1.messages.length + 2 := by
  obtain ⟨response, h1, -, conv', h3, -, h5, -⟩ :=
    query_success_appends_two ⟨[]⟩ ⟨"q", none, 5⟩ [] (fun _ => Except.ok ⟨"ans", 3, 7⟩)
      ⟨"ans", 3, 7⟩ "c1" 0 1 2 3 rfl (by decide) (by decide)
  exact ⟨response, conv', h1, h3, h5⟩

/-! ## C6: the add/get round trip -/

theorem padDigits_succ (w n : Nat) :
    padDigits (w + 1) n = Char.ofNat (48 + n / 10 ^ w % 10) :: padDigits w n := by
  unfold padDigits
  rw [List.range_succ]
  simp

theorem digit_isDigit (d : Nat) (h : d < 10) : (Char.ofNat (48 + d)).isDigit = true := by
  interval_cases d <;> decide

theorem digit_toNat (d : Nat) (h : d < 10) : (Char.ofNat (48 + d)).toNat - 48 = d := by
  interval_cases d <;> decide

theorem parseDigitsAux_padDigits (w : Nat) : ∀ (acc n : Nat) (rest : List Char),
    parseDigitsAux acc w (padDigits w n ++ rest) =
      some (acc * 10 ^ w + n % 10 ^ w, rest) := by
  induction w with
  | zero =>
    intro acc n rest
    simp [padDigits, parseDigitsAux, Nat.mod_one]
  | succ w ih =>
    intro acc n rest
    rw [padDigits_succ]
    have hd : n / 10 ^ w % 10 < 10 := Nat.mod_lt _ (by norm_num)
    rw [List.cons_append, parseDigitsAux, if_pos (digit_isDigit _ hd), digit_toNat _ hd, ih]
    have hmod : n % 10 ^ (w + 1) = n % 10 ^ w + 10 ^ w * (n / 10 ^ w % 10) := by
      rw [pow_succ]
      exact Nat.mod_mul
    rw [hmod, pow_succ]
    ring_nf

theorem parseDigitsAux_padDigits_nil (w acc n : Nat) :
    parseDigitsAux acc w (padDigits w n) = some (acc * 10 ^ w + n % 10 ^ w, []) := by
  have := parseDigitsAux_padDigits w acc n []
  rwa [List.append_nil] at this

theorem daysInMonth_le (y m : Nat) : daysInMonth y m ≤ 31 := by
  unfold daysInMonth
  split
  · split <;> norm_num
  · split <;> norm_num

theorem expectChar_cons_self (c : Char) (rest : List Char) :
    expectChar c (c :: rest) = some rest := by
  simp [expectChar]

theorem parseMicro_pad (us : Nat) (h : us ≤ 999999) :
    parseMicro ('.' :: padDigits 6 us) = some us := by
  have hlt : us % 10 ^ 6 = us := Nat.mod_eq_of_lt (by omega)
  rw [parseMicro, parseDigitsAux_padDigits_nil]
  simp [hlt]
  omega

set_option maxHeartbeats 2000000 in
/-- The ISO-8601 round trip: datetime.fromisoformat inverts
datetime.isoformat on every datetime the constructor accepts. -/
theorem fromisoformat_isoformat (d : DateTime) (h : d.valid = true) :
    DateTime.fromisoformat d.isoformat = some d := by
  obtain ⟨y, mo, da, hh, mi, se, us⟩ := d
  have hb := h
  simp only [DateTime.valid, Bool.and_eq_true, decide_eq_true_eq] at hb
  obtain ⟨⟨⟨⟨⟨⟨⟨⟨⟨hy1, hy2⟩, hmo1⟩, hmo2⟩, hda1⟩, hda2⟩, hhh⟩, hmi⟩, hse⟩, hus⟩ := hb
  have ey : 0 * 10 ^ 4 + y % 10 ^ 4 = y := by
    rw [Nat.mod_eq_of_lt (by omega)]; omega
  have emo : 0 * 10 ^ 2 + mo % 10 ^ 2 = mo := by
    rw [Nat.mod_eq_of_lt (by omega)]; omega
  have eda : 0 * 10 ^ 2 + da % 10 ^ 2 = da := by
    have : da ≤ 31 := le_trans hda2 (daysInMonth_le _ _)
    rw [Nat.mod_eq_of_lt (by omega)]; omega
  have ehh : 0 * 10 ^ 2 + hh % 10 ^ 2 = hh := by
    rw [Nat.mod_eq_of_lt (by omega)]; omega
  have emi : 0 * 10 ^ 2 + mi % 10 ^ 2 = mi := by
    rw [Nat.mod_eq_of_lt (by omega)]; omega
  have ese : 0 * 10 ^ 2 + se % 10 ^ 2 = se := by
    rw [Nat.mod_eq_of_lt (by omega)]; omega
  have hiso : DateTime.isoformat ⟨y, mo, da, hh, mi, se, us⟩ =
      padDigits 4 y ++ '-' :: padDigits 2 mo ++ '-' :: padDigits 2 da ++
        'T' :: padDigits 2 hh ++ ':' :: padDigits 2 mi ++ ':' :: padDigits 2 se ++
        (if us = 0 then [] else '.' :: padDigits 6 us) := rfl
  rw [hiso]
  by_cases h0 : us = 0
  · rw [if_pos h0]
    subst h0
    rw [DateTime.fromisoformat]
    simp only [List.append_assoc, List.cons_append, List.append_nil]
    rw [parseDigitsAux_padDigits, ey]
    simp only [expectChar_cons_self]
    rw [parseDigitsAux_padDigits, emo]
    simp only [expectChar_cons_self]
    rw [parseDigitsAux_padDigits, eda]
    simp only [expectChar_cons_self]
    rw [parseDigitsAux_padDigits, ehh]
    simp only [expectChar_cons_self]
    rw [parseDigitsAux_padDigits, emi]
    simp only [expectChar_cons_self]
    rw [parseDigitsAux_padDigits_nil, ese]
    simp only [parseMicro, h]
    rfl
  · rw [if_neg h0]
    rw [DateTime.fromisoformat]
    simp only [List.append_assoc, List.cons_append, List.append_nil]
    rw [parseDigitsAux_padDigits, ey]
    simp only [expectChar_cons_self]
    rw [parseDigitsAux_padDigits, emo]
    simp only [expectChar_cons_self]
    rw [parseDigitsAux_padDigits, eda]
    simp only [expectChar_cons_self]
    rw [parseDigitsAux_padDigits, ehh]
    simp only [expectChar_cons_self]
    rw [parseDigitsAux_padDigits, emi]
    simp only [expectChar_cons_self]
    rw [parseDigitsAux_padDigits, ese]
    simp only [parseMicro_pad us (by omega), h]
    rfl

/-- C6 counterexample: a MemoryEntry whose customer label is the empty
string comes back with customer None after add + get: the empty-string
sentinel written by add_memory_entry and the falsy-to-None coercion in
get_memory_entry erase the distinction, so the labels are not identical. -/
theorem add_get_roundtrip_counterexample :
    VectorStore.get_memory_entry (VectorStore.add_memory_entry ⟨[]⟩ emptyLabelEntry "m1").2
        ((VectorStore.add_memory_entry ⟨[]⟩ emptyLabelEntry "m1").1) =
      Except.ok (some emptyLabelFetched) ∧
    emptyLabelEntry.customer = some "" ∧
    emptyLabelFetched.customer = none ∧
    emptyLabelFetched.customer ≠ emptyLabelEntry.customer := by decide

/-- C6 (amended): adding a MemoryEntry whose free-form metadata does not
shadow the reserved metadata keys and fetching it back by the returned id
yields an entry with identical content, a date denoting the same instant
(round-tripped through its ISO-8601 string form), identical
source-document id, chunk index and importance score, and customer and
project labels identical whenever they are non-empty — a None or
empty-string label is normalised to None. -/
theorem add_get_roundtrip
    (st : VectorStoreState) (e : MemoryEntry) (newId : String)
    (hvalid : e.date.valid = true)
    (hfresh : dictGet st.entries newId = none)
    (hmeta : ∀ p ∈ e.metadata,
      p.1 ∉ (["source_document_id", "chunk_index", "customer", "project", "date",
              "importance_score", "is_manual_entry"] : List String)) :
    ∃ fetched : MemoryEntry,
      VectorStore.get_memory_entry (VectorStore.add_memory_entry st e newId).2
          ((VectorStore.add_memory_entry st e newId).1) = Except.ok (some fetched) ∧
      fetched.content = e.content ∧
      fetched.date = e.date ∧
      fetched.customer = (if e.customer.getD "" = "" then none else e.customer) ∧
      fetched.project = (if e.project.getD "" = "" then none else e.project) ∧
      fetched.source_document_id = e.source_document_id ∧
      fetched.chunk_index = e.chunk_index ∧
      fetched.importance_score = e.importance_score := by
  have hstored : (VectorStore.add_memory_entry st e newId).2.entries =
      st.entries ++ [(newId,
        (e.content,
         dictUpdate
           [("source_document_id", MetaVal.str e.source_document_id),
            ("chunk_index", MetaVal.int e.chunk_index),
            ("customer", MetaVal.str (e.customer.getD "")),
            ("project", MetaVal.str (e.project.getD "")),
            ("date", MetaVal.str (String.mk e.date.isoformat)),
            ("importance_score", MetaVal.float e.importance_score),
            ("is_manual_entry", MetaVal.bool true)]
           e.metadata))] := rfl
  set base : List (String × MetaVal) :=
    [("source_document_id", MetaVal.str e.source_document_id),
     ("chunk_index", MetaVal.int e.chunk_index),
     ("customer", MetaVal.str (e.customer.getD "")),
     ("project", MetaVal.str (e.project.getD "")),
     ("date", MetaVal.str (String.mk e.date.isoformat)),
     ("importance_score", MetaVal.float e.importance_score),
     ("is_manual_entry", MetaVal.bool true)] with hbase
  have hlook : ∀ k : String,
      k ∈ (["source_document_id", "chunk_index", "customer", "project", "date",
            "importance_score", "is_manual_entry"] : List String) →
      dictGet (dictUpdate base e.metadata) k = dictGet base k := by
    intro k hk
    exact dictGet_dictUpdate_of_not_mem _ _ _ fun p hp hpk => hmeta p hp (hpk ▸ hk)
  have hgetrow : dictGet (VectorStore.add_memory_entry st e newId).2.entries newId =
      some (e.content, dictUpdate base e.metadata) := by
    rw [hstored, dictGet_append_right _ _ _ hfresh]
    simp [dictGet, List.find?]
  have hdate : dictGet (dictUpdate base e.metadata) "date" =
      some (MetaVal.str (String.mk e.date.isoformat)) := by
    rw [hlook _ (by simp), hbase]
    simp [dictGet, List.find?]
  have hsid : dictGet (dictUpdate base e.metadata) "source_document_id" =
      some (MetaVal.str e.source_document_id) := by
    rw [hlook _ (by simp), hbase]
    simp [dictGet, List.find?]
  have hci : dictGet (dictUpdate base e.metadata) "chunk_index" =
      some (MetaVal.int e.chunk_index) := by
    rw [hlook _ (by simp), hbase]
    simp [dictGet, List.find?]
  have hcust : dictGet (dictUpdate base e.metadata) "customer" =
      some (MetaVal.str (e.customer.getD "")) := by
    rw [hlook _ (by simp), hbase]
    simp [dictGet, List.find?]
  have hproj : dictGet (dictUpdate base e.metadata) "project" =
      some (MetaVal.str (e.project.getD "")) := by
    rw [hlook _ (by simp), hbase]
    simp [dictGet, List.find?]
  have himp : dictGet (dictUpdate base e.metadata) "importance_score" =
      some (MetaVal.float e.importance_score) := by
    rw [hlook _ (by simp), hbase]
    simp [dictGet, List.find?]
  have hparse : DateTime.fromisoformat e.date.isoformat = some e.date :=
    fromisoformat_isoformat e.date hvalid
  have hid : (VectorStore.add_memory_entry st e newId).1 = newId := rfl
  refine ⟨{ id := newId, content := e.content
            customer := pyOrNone (dictGet (dictUpdate base e.metadata) "customer")
            project := pyOrNone (dictGet (dictUpdate base e.metadata) "project")
            date := e.date, source_document_id := e.source_document_id
            chunk_index := e.chunk_index
            importance_score :=
              match dictGet (dictUpdate base e.metadata) "importance_score" with
              | some (MetaVal.float q) => q
              | _ => 1
            metadata := dictUpdate base e.metadata }, ?_, rfl, rfl, ?_, ?_, rfl, rfl, ?_⟩
  · unfold VectorStore.get_memory_entry
    rw [hid, hgetrow]
    dsimp only
    unfold VectorStore.entryOfStored
    rw [hdate]
    dsimp only
    rw [hparse]
    dsimp only
    rw [hsid, hci]
    rfl
  · rw [hcust]
    cases hc : e.customer with
    | none => simp [pyOrNone]
    | some c =>
      by_cases hc0 : c = ""
      · subst hc0
        simp [pyOrNone]
      · simp [pyOrNone, hc0]
  · rw [hproj]
    cases hp : e.project with
    | none => simp [pyOrNone]
    | some c =>
      by_cases hc0 : c = ""
      · subst hc0
        simp [pyOrNone]
      · simp [pyOrNone, hc0]
  · rw [himp]

/-- C6 witness: the amended round trip at a concrete entry (with an
empty-string customer label, which normalises to None). -/
theorem add_get_roundtrip_witness :
    ∃ fetched : MemoryEntry,
      VectorStore.get_memory_entry (VectorStore.add_memory_entry ⟨[]⟩ emptyLabelEntry "m1").2
          ((VectorStore.add_memory_entry ⟨[]⟩ emptyLabelEntry "m1").1) =
        Except.ok (some fetched) ∧
      fetched.content = emptyLabelEntry.content ∧
      fetched.date = emptyLabelEntry.date ∧
      fetched.customer =
        (if emptyLabelEntry.customer.getD "" = "" then none else emptyLabelEntry.customer) ∧
      fetched.project =
        (if emptyLabelEntry.project.getD "" = "" then none else emptyLabelEntry.project) ∧
      fetched.source_document_id = emptyLabelEntry.source_document_id ∧
      fetched.chunk_index = emptyLabelEntry.chunk_index ∧
      fetched.importance_score = emptyLabelEntry.importance_score :=
  add_get_roundtrip ⟨[]⟩ emptyLabelEntry "m1" (by decide) rfl
    (by intro p hp; simp [emptyLabelEntry] at hp)

/-! ## C2: termination and coverage of the chunker -/

/-- C2 counterexample: with chunk_size 3 and chunk_overlap 0 (overlap
strictly below chunk_size) on the five-character text "ab cd", the chunker
terminates with the two chunks "ab" and "cd", and the space — a character
of the original text — appears in neither chunk: stripping eats boundary
whitespace, so not every character of the text survives into a chunk. -/
theorem chunker_coverage_counterexample :
    0 < 3 ∧ 3 < ("ab cd").data.length ∧
    chunkText 3 0 10 ("ab cd").data = some [("ab").data, ("cd").data] ∧
    ' ' ∈ ("ab cd").data ∧
    ¬ (' ' ∈ ("ab").data ∨ ' ' ∈ ("cd").data) := by decide

theorem pyAdjIndex_coe (n : Nat) (i : Int) (h0 : 0 ≤ i) (h1 : i ≤ (n : Int)) :
    (pyAdjIndex n i : Int) = i := by
  unfold pyAdjIndex
  rw [if_neg (not_lt.mpr h0)]
  have hti : i.toNat ≤ n := by omega
  rw [min_eq_left hti]
  omega

theorem pyAdjIndex_le (n : Nat) (i : Int) : pyAdjIndex n i ≤ n := by
  unfold pyAdjIndex
  split
  · omega
  · exact min_le_right _ _

theorem mem_rfindCandidates (l : List Char) (a b m : Nat)
    (h : m ∈ rfindCandidates l a b) : a ≤ m ∧ m < b := by
  obtain ⟨hr, hf⟩ := List.mem_filter.mp h
  simp only [Bool.and_eq_true, decide_eq_true_eq] at hf
  exact ⟨hf.1, List.mem_range.mp hr⟩

theorem pyRfindDot_spec (l : List Char) (i j : Int) :
    pyRfindDot l i j = -1 ∨
    ∃ m : Nat, pyRfindDot l i j = (m : Int) ∧
      pyAdjIndex l.length i ≤ m ∧ m < pyAdjIndex l.length j := by
  unfold pyRfindDot
  cases hl : (rfindCandidates l (pyAdjIndex l.length i) (pyAdjIndex l.length j)).getLast? with
  | none => exact Or.inl rfl
  | some m =>
    have hmem : m ∈ rfindCandidates l (pyAdjIndex l.length i) (pyAdjIndex l.length j) :=
      List.mem_of_mem_getLast? (by rw [hl]; rfl)
    obtain ⟨h1, h2⟩ := mem_rfindCandidates _ _ _ _ hmem
    exact Or.inr ⟨m, rfl, h1, h2⟩

theorem get_mem_pySlice (l : List Char) (i j : Int) (k : Nat) (hk : k < l.length)
    (h0 : 0 ≤ i) (h2 : i ≤ (k : Int)) (h3 : (k : Int) < j) :
    l.get ⟨k, hk⟩ ∈ pySlice l i j := by
  unfold pySlice
  have ha : (pyAdjIndex l.length i : Int) = i := pyAdjIndex_coe _ _ h0 (by omega)
  set a := pyAdjIndex l.length i with hadef
  set b := pyAdjIndex l.length j with hbdef
  have hak : a ≤ k := by omega
  have hkb : k < b := by
    rw [hbdef]
    unfold pyAdjIndex
    rw [if_neg (by omega : ¬ j < 0)]
    exact Nat.lt_min.mpr ⟨by omega, hk⟩
  have hbl : b ≤ l.length := pyAdjIndex_le _ _
  have hlen : k - a < ((l.take b).drop a).length := by
    rw [List.length_drop, List.length_take]
    omega
  have heq : ((l.take b).drop a).get ⟨k - a, hlen⟩ = l.get ⟨k, hk⟩ := by
    simp only [List.get_eq_getElem, List.getElem_drop, List.getElem_take]
    congr 1
    omega
  rw [← heq]
  exact List.get_mem _ _ _

set_option maxHeartbeats 1000000 in
theorem chunkLoop_covers (csize coverlap : Nat) (text : List Char)
    (hsize : coverlap + 100 ≤ csize) :
    ∀ (fuel : Nat) (start : Int) (chunks : List (List Char)),
      0 ≤ start → start < (text.length : Int) →
      (text.length : Int) - start < (fuel : Int) →
      (∀ (i : Nat) (hi : i < text.length), (i : Int) < start →
        isPySpace (text.get ⟨i, hi⟩) = false → ∃ c ∈ chunks, text.get ⟨i, hi⟩ ∈ c) →
      ∃ cs, chunkLoop csize coverlap text fuel start chunks = some cs ∧
        (∀ c ∈ chunks, c ∈ cs) ∧
        (∀ (i : Nat) (hi : i < text.length),
          isPySpace (text.get ⟨i, hi⟩) = false → ∃ c ∈ cs, text.get ⟨i, hi⟩ ∈ c) := by
  intro fuel
  induction fuel with
  | zero =>
    intro start chunks h0 hlt hfuel hinv
    exfalso
    omega
  | succ fuel ih =>
    intro start chunks h0 hlt hfuel hinv
    simp only [chunkLoop]
    rw [if_pos hlt]
    set L : Int := (text.length : Int) with hL
    set end0 : Int := start + (csize : Int) with hend0
    set endF : Int :=
      (if end0 < L then
        (if pyRfindDot text (max (end0 - 100) start) end0 > start
         then pyRfindDot text (max (end0 - 100) start) end0 + 1
         else end0)
      else end0) with hendF
    have hb : start < endF ∧ endF ≤ start + (csize : Int) ∧
        start + (csize : Int) - 99 ≤ endF := by
      rw [hendF]
      by_cases hlt2 : end0 < L
      · rw [if_pos hlt2]
        rcases pyRfindDot_spec text (max (end0 - 100) start) end0 with hneg | ⟨m, hm, hm1, hm2⟩
        · rw [hneg]
          rw [if_neg (by omega : ¬ (-1 : Int) > start)]
          omega
        · rw [hm]
          by_cases hgt : (m : Int) > start
          · rw [if_pos hgt]
            have hcoe2 : (pyAdjIndex text.length end0 : Int) = end0 :=
              pyAdjIndex_coe _ _ (by omega) (by omega)
            have hcoe1 : (pyAdjIndex text.length (max (end0 - 100) start) : Int) =
                max (end0 - 100) start :=
              pyAdjIndex_coe _ _ (by omega) (by omega)
            have hm1' : max (end0 - 100) start ≤ (m : Int) := by
              rw [← hcoe1]
              exact_mod_cast Nat.cast_le.mpr hm1
            have hm2' : (m : Int) < end0 := by
              rw [← hcoe2]
              exact_mod_cast Nat.cast_lt.mpr hm2
            omega
          · rw [if_neg hgt]
            omega
      · rw [if_neg hlt2]
        omega
    obtain ⟨hb1, hb2, hb3⟩ := hb
    set chunk := pyStrip (pySlice text start endF) with hchunk
    set chunks' := (if chunk.isEmpty then chunks else chunks ++ [chunk]) with hchunks'
    set start' := endF - (coverlap : Int) with hstart'
    have hadv : start + 1 ≤ start' := by omega
    have hsub : ∀ c ∈ chunks, c ∈ chunks' := by
      intro c hc
      rw [hchunks']
      split
      · exact hc
      · exact List.mem_append_left _ hc
    have hinv' : ∀ (i : Nat) (hi : i < text.length), (i : Int) < start' →
        isPySpace (text.get ⟨i, hi⟩) = false → ∃ c ∈ chunks', text.get ⟨i, hi⟩ ∈ c := by
      intro i hi hilt hns
      by_cases hio : (i : Int) < start
      · obtain ⟨c, hc, hmemc⟩ := hinv i hi hio hns
        exact ⟨c, hsub c hc, hmemc⟩
      · have hge : start ≤ (i : Int) := le_of_not_lt hio
        have hiend : (i : Int) < endF := by omega
        have hmem_slice : text.get ⟨i, hi⟩ ∈ pySlice text start endF :=
          get_mem_pySlice text start endF i hi h0 hge hiend
        have hmem_chunk : text.get ⟨i, hi⟩ ∈ chunk := mem_pyStrip hmem_slice hns
        have hne : chunk.isEmpty = false := by
          cases hemp : chunk.isEmpty
          · rfl
          · rw [List.isEmpty_iff] at hemp
            rw [hemp] at hmem_chunk
            cases hmem_chunk
        refine ⟨chunk, ?_, hmem_chunk⟩
        rw [hchunks', hne]
        simp
    by_cases hstop : L ≤ start'
    · refine ⟨chunks', ?_, hsub, ?_⟩
      · rw [if_pos hstop]
      · intro i hi hns
        have hiL : (i : Int) < L := by
          rw [hL]
          exact_mod_cast hi
        exact hinv' i hi (by omega) hns
    · have hstart'lt : start' < L := lt_of_not_le hstop
      obtain ⟨cs, hcs, hsub2, hcov⟩ := ih start' chunks' (by omega) hstart'lt (by omega) hinv'
      refine ⟨cs, ?_, fun c hc => hsub2 c (hsub c hc), hcov⟩
      rw [if_neg hstop]
      exact hcs

/-- C2 (amended): for every text strictly longer than chunk_size, whenever
chunk_overlap + 100 ≤ chunk_size (the sentence-boundary backtrack reaches
at most 100 characters, so this is what guarantees the loop index always
advances), _chunk_text terminates — fuel length+2 suffices for the loop —
and every non-whitespace character of the original text appears in at
least one returned chunk.  Whitespace-only stretches can be trimmed away
entirely, so fewer than 2 chunks — even none — may be returned. -/
theorem chunkText_terminates_and_covers (csize coverlap : Nat) (text : List Char)
    (hsize : coverlap + 100 ≤ csize) (hlong : csize < text.length) :
    ∃ chunks, chunkText csize coverlap (text.length + 2) text = some chunks ∧
      ∀ (i : Nat) (hi : i < text.length), isPySpace (text.get ⟨i, hi⟩) = false →
        ∃ c ∈ chunks, text.get ⟨i, hi⟩ ∈ c := by
  obtain ⟨cs, hcs, -, hcov⟩ := chunkLoop_covers csize coverlap text hsize (text.length + 2) 0 []
    le_rfl (by omega) (by omega) (fun i hi hilt _ => absurd hilt (by omega))
  refine ⟨cs, ?_, hcov⟩
  unfold chunkText
  rw [if_neg (not_le.mpr hlong)]
  exact hcs

/-- C2 witness: the amended theorem at chunk_size 100, overlap 0, on a
101-character text. -/
theorem chunkText_terminates_and_covers_witness :
    (0 + 100 ≤ 100 ∧ 100 < (List.replicate 101 'a').length) ∧
    ∃ chunks,
      chunkText 100 0 ((List.replicate 101 'a').length + 2) (List.replicate 101 'a') =
        some chunks ∧
      ∀ (i : Nat) (hi : i < (List.replicate 101 'a').length),
        isPySpace ((List.replicate 101 'a').get ⟨i, hi⟩) = false →
        ∃ c ∈ chunks, (List.replicate 101 'a').get ⟨i, hi⟩ ∈ c :=
  ⟨⟨by norm_num, by simp⟩,
   chunkText_terminates_and_covers 100 0 (List.replicate 101 'a') (by norm_num) (by simp)⟩

/-- With chunk_overlap merely below chunk_size the chunker need not even
terminate: at chunk_size 10, overlap 5, a period close to the start pulls
the window end back to position 2, the overlap subtraction drives start
negative, and from then on every iteration recomputes start = -5 — the
loop never exits, so the fueled embedding returns none for every fuel.
This is why the amended C2 strengthens the hypothesis to
chunk_overlap + 100 ≤ chunk_size. -/
theorem chunkText_can_diverge_below_chunk_size :
    5 < 10 ∧ ∀ fuel : Nat, chunkText 10 5 fuel ("a.aaaaaaaaaaaaaaaaaa").data = none := by
  have hstuck : ∀ (fuel : Nat) (chunks : List (List Char)),
      chunkLoop 10 5 ("a.aaaaaaaaaaaaaaaaaa").data fuel (-5) chunks = none := by
    intro fuel
    induction fuel with
    | zero => intro chunks; rfl
    | succ n ih =>
      intro chunks
      show chunkLoop 10 5 ("a.aaaaaaaaaaaaaaaaaa").data n (-5) chunks = none
      exact ih chunks
  refine ⟨by norm_num, ?_⟩
  intro fuel
  match fuel with
  | 0 => rfl
  | 1 => rfl
  | 2 => rfl
  | (p + 3) =>
    show chunkLoop 10 5 ("a.aaaaaaaaaaaaaaaaaa").data (p + 1) (-5) [("a.").data] = none
    exact hstuck (p + 1) _
